import Mathlib

/-!
Shallow embedding of the portfolio ledger of the smart-investor repository
(`src/utils/MCPClient.ts`, class `PortfolioModel`, and the `PortfolioManager`
service), together with proofs of the specified properties.

Modelling conventions:
* JavaScript numbers that stay finite are modelled as rationals (`ℚ`).
  The one place the source can produce a non-finite number (division by
  `initialCapital` when it is zero) is modelled by the `JSNum` type below.
* `Date`-valued fields (`createdAt`, `lastUpdated`, `timestamp`) carry no
  arithmetic content; `lastUpdated` updates are not observable by any claim,
  so those fields are omitted.  The assignment of `executedAt` on a
  recommendation is modelled by the boolean `executedAtStamped`.
* Thrown `Error`s become `Except Err` results (or an `Option Err` component
  where in-place mutations can survive a throw); since state is passed
  explicitly, an error result literally leaves the caller's state unchanged.
* The JS `Map` of prices becomes an association list `List (String × ℚ)`
  looked up with `List.lookup`; `uuid` generation and persistence to disk
  are outside the ledger arithmetic and are not modelled.
-/

deriving instance DecidableEq for Except

/-- A JavaScript number that may be non-finite: the result of `a / b` when
`b = 0` is `NaN` (for `a = 0`) or `±Infinity`, never a finite value. -/
inductive JSNum where
  | finite (q : ℚ)
  | nan
  | posInf
  | negInf
deriving Repr, DecidableEq

/-- JavaScript division `a / b` on finite operands. -/
def jsDiv (a b : ℚ) : JSNum :=
  if b = 0 then
    if a = 0 then .nan else if 0 < a then .posInf else .negInf
  else .finite (a / b)

/-- Multiplication of a JavaScript number by the literal `100`
(as in `... / initialCapital * 100`). -/
def jsMul100 : JSNum → JSNum
  | .finite q => .finite (q * 100)
  | .nan => .nan
  | .posInf => .posInf
  | .negInf => .negInf

/-- JavaScript `x || y` for `x : Option ℚ` (the result of `Map.get`):
`undefined` and `0` are falsy, any other number is truthy.
Models `currentPrices.get(holding.symbol) || holding.averageCost`. -/
def jsOrElse : Option ℚ → ℚ → ℚ
  | some x, y => if x = 0 then y else x
  | none, y => y

/-- A holding (`Holding` in `src/types`): per-symbol position.
`lastUpdated` is omitted (see module comment). -/
structure Holding where
  symbol : String
  quantity : ℚ
  averageCost : ℚ
  currentPrice : Option ℚ := none
deriving Repr, DecidableEq

/-- The portfolio state held by `PortfolioModel` (`src/utils/MCPClient.ts`):
`id`, `name`, `createdAt` and `criteria` carry no ledger arithmetic and are
omitted. -/
structure PortfolioModel where
  initialCapital : ℚ
  currentCash : ℚ
  holdings : List Holding
deriving Repr, DecidableEq

/-- The `PortfolioModel` constructor: fresh portfolio with
`currentCash = initialCapital` and no holdings. -/
def mkPortfolioModel (initialCapital : ℚ) : PortfolioModel :=
  { initialCapital := initialCapital
    currentCash := initialCapital
    holdings := [] }

/-- The errors thrown by the ledger and manager code (all are plain
`throw new Error(...)` in the source; the spec's taxonomy names them). -/
inductive Err where
  | insufficientFunds
  | holdingNotFound (symbol : String)
  | insufficientShares
  | portfolioNotFound
  | recommendationNotFound
  | alreadyExecuted
  | providerError
deriving Repr, DecidableEq

/-- Apply `f` to the first element of `l` whose symbol is `s`, keeping the
rest: the functional image of mutating the holding object returned by
`this.data.holdings.find(h => h.symbol === symbol)`. -/
def updateFirst (l : List Holding) (s : String) (f : Holding → Holding) : List Holding :=
  match l with
  | [] => []
  | h :: t => if h.symbol == s then f h :: t else h :: updateFirst t s f

/-- The merge of a buy into an existing holding: weighted-average cost
(`newAvgCost = (oldAvgCost*oldQty + price*quantity) / (oldQty+quantity)`)
and summed quantity. -/
def mergeBuy (quantity price : ℚ) (existingHolding : Holding) : Holding :=
  let totalQuantity := existingHolding.quantity + quantity
  let mergedCost := existingHolding.averageCost * existingHolding.quantity + price * quantity
  { existingHolding with
    averageCost := mergedCost / totalQuantity
    quantity := totalQuantity }

/-- The holdings update performed by a successful `addHolding`: merge into
the existing holding for the symbol, or append a fresh one. -/
def buyHoldings (holdings : List Holding) (symbol : String) (quantity price : ℚ) :
    List Holding :=
  match holdings.find? (fun h => h.symbol == symbol) with
  | some _ => updateFirst holdings symbol (mergeBuy quantity price)
  | none => holdings ++ [{ symbol := symbol, quantity := quantity, averageCost := price }]

/-- `PortfolioModel.addHolding(symbol, quantity, price)`: reject when
`quantity*price > currentCash`; otherwise merge into an existing holding with
the weighted-average cost, or append a new holding, then decrement cash by
`quantity*price` (the inner `totalCost` of the source shadows the outer one
only inside the merge branch, so the decrement always uses `quantity*price`). -/
def addHolding (pf : PortfolioModel) (symbol : String) (quantity price : ℚ) :
    Except Err PortfolioModel :=
  let totalCost := quantity * price
  if totalCost > pf.currentCash then
    .error .insufficientFunds
  else
    .ok { pf with holdings := buyHoldings pf.holdings symbol quantity price
                  currentCash := pf.currentCash - totalCost }

/-- The holdings update performed by a successful `removeHolding`: delete
the holding on a full sale (via `filter`, as the source does) or decrement
its quantity on a partial sale, leaving `averageCost` untouched. -/
def sellHoldings (holdings : List Holding) (symbol : String) (quantity : ℚ)
    (holding : Holding) : List Holding :=
  if holding.quantity = quantity then
    holdings.filter (fun h => !(h.symbol == symbol))
  else
    updateFirst holdings symbol (fun h => { h with quantity := h.quantity - quantity })

/-- `PortfolioModel.removeHolding(symbol, quantity, price)`: fail when no
holding exists or it holds fewer shares than `quantity`; otherwise add
`quantity*price` to cash and delete the holding (full sale) or decrement its
quantity (partial sale). -/
def removeHolding (pf : PortfolioModel) (symbol : String) (quantity price : ℚ) :
    Except Err PortfolioModel :=
  match pf.holdings.find? (fun h => h.symbol == symbol) with
  | none => .error (.holdingNotFound symbol)
  | some holding =>
    if holding.quantity < quantity then
      .error .insufficientShares
    else
      let sellValue := quantity * price
      .ok { pf with currentCash := pf.currentCash + sellValue
                    holdings := sellHoldings pf.holdings symbol quantity holding }

example :
    addHolding (mkPortfolioModel 10000) "AAPL" 10 100 =
      .ok { initialCapital := 10000, currentCash := 9000,
            holdings := [{ symbol := "AAPL", quantity := 10, averageCost := 100 }] } := by
  simp [addHolding, buyHoldings, mergeBuy, mkPortfolioModel, updateFirst, List.find?]
  norm_num

example :
    addHolding { initialCapital := 10000, currentCash := 9000,
                 holdings := [{ symbol := "AAPL", quantity := 10, averageCost := 100 }] }
      "AAPL" 10 200 =
      .ok { initialCapital := 10000, currentCash := 7000,
            holdings := [{ symbol := "AAPL", quantity := 20, averageCost := 150 }] } := by
  simp [addHolding, buyHoldings, mergeBuy, updateFirst, List.find?]
  norm_num

example :
    addHolding (mkPortfolioModel 100) "AAPL" 10 100 = .error .insufficientFunds := by
  simp [addHolding, mkPortfolioModel]

example :
    removeHolding (mkPortfolioModel 100) "AAPL" 1 10 = .error (.holdingNotFound "AAPL") := by
  simp [removeHolding, mkPortfolioModel, List.find?]

/-- `PerformanceMetrics` (from `src/types`): `percentageReturns` is a
`JSNum` because the source divides by `initialCapital` unguarded. -/
structure PerformanceMetrics where
  totalValue : ℚ
  totalReturns : ℚ
  percentageReturns : JSNum
  unrealizedGains : ℚ
  realizedGains : ℚ
deriving Repr, DecidableEq

/-- The `for` loop body of `calculateTotalValue`, threading the
`(totalValue, unrealizedGains, rebuilt holdings)` accumulator left to right:
the looked-up price (with the `|| averageCost` fallback) is added to the
totals and cached on the holding's `currentPrice`. -/
def valuationStep (currentPrices : List (String × ℚ)) (acc : ℚ × ℚ × List Holding)
    (h : Holding) : ℚ × ℚ × List Holding :=
  let currentPrice := jsOrElse (currentPrices.lookup h.symbol) h.averageCost
  let holdingValue := h.quantity * currentPrice
  let costBasis := h.quantity * h.averageCost
  (acc.1 + holdingValue, acc.2.1 + (holdingValue - costBasis),
    acc.2.2 ++ [{ h with currentPrice := some currentPrice }])

/-- `PortfolioModel.calculateTotalValue(currentPrices)`: loop over the
holdings accumulating `totalValue` (seeded with `currentCash`) and
`unrealizedGains`, then derive returns; the updated portfolio (with each
holding's `currentPrice` overwritten) is returned alongside the metrics to
model the in-place mutation. -/
def calculateTotalValue (pf : PortfolioModel) (currentPrices : List (String × ℚ)) :
    PerformanceMetrics × PortfolioModel :=
  let res := pf.holdings.foldl (valuationStep currentPrices) (pf.currentCash, 0, [])
  let totalValue := res.1
  let unrealizedGains := res.2.1
  let totalReturns := totalValue - pf.initialCapital
  ({ totalValue := totalValue
     totalReturns := totalReturns
     percentageReturns := jsMul100 (jsDiv totalReturns pf.initialCapital)
     unrealizedGains := unrealizedGains
     realizedGains := 0 },
   { pf with holdings := res.2.2 })

/-- The price `calculateTotalValue` actually uses for a holding: the mapped
price when the symbol is present with a nonzero (JS-truthy) price, otherwise
`averageCost`. -/
def priceUsed (currentPrices : List (String × ℚ)) (h : Holding) : ℚ :=
  match currentPrices.lookup h.symbol with
  | some p => if p = 0 then h.averageCost else p
  | none => h.averageCost

/-- A buy or sell of the given quantity at the given execution price. -/
inductive Op where
  | buy (symbol : String) (quantity price : ℚ)
  | sell (symbol : String) (quantity price : ℚ)
deriving Repr, DecidableEq

/-- The share quantity of an operation. -/
def Op.qty : Op → ℚ
  | .buy _ q _ => q
  | .sell _ q _ => q

/-- Dispatch one operation to the ledger. -/
def applyOp (pf : PortfolioModel) : Op → Except Err PortfolioModel
  | .buy s q pr => addHolding pf s q pr
  | .sell s q pr => removeHolding pf s q pr

/-- Run a sequence of operations, stopping at the first error. -/
def runOps (pf : PortfolioModel) : List Op → Except Err PortfolioModel
  | [] => .ok pf
  | op :: ops =>
    match applyOp pf op with
    | .error e => .error e
    | .ok pf2 => runOps pf2 ops

/-- The cash spent by an operation if it is a buy. -/
def buyCost : Op → ℚ
  | .buy _ q pr => q * pr
  | .sell _ _ _ => 0

/-- The cash received by an operation if it is a sell. -/
def sellProceeds : Op → ℚ
  | .sell _ q pr => q * pr
  | .buy _ _ _ => 0

/-- `Σ holding.quantity * holding.averageCost` over a portfolio's holdings. -/
def costBasisSum (pf : PortfolioModel) : ℚ :=
  (pf.holdings.map (fun h => h.quantity * h.averageCost)).sum

/-- The realized gain of an operation in a given state: for a sell,
`quantity * (price − averageCost of the symbol's holding)`; buys realize
nothing. -/
def realizedGain (pf : PortfolioModel) : Op → ℚ
  | .sell s q pr =>
    match pf.holdings.find? (fun h => h.symbol == s) with
    | some h => q * (pr - h.averageCost)
    | none => 0
  | .buy _ _ _ => 0

/-- Run a sequence of operations while accumulating realized gains. -/
def runOpsRealized (pf : PortfolioModel) (acc : ℚ) :
    List Op → Except Err (PortfolioModel × ℚ)
  | [] => .ok (pf, acc)
  | op :: ops =>
    match applyOp pf op with
    | .error e => .error e
    | .ok pf2 => runOpsRealized pf2 (acc + realizedGain pf op) ops

/-- Well-formedness of a portfolio state: symbols are pairwise distinct and
every holding has a positive quantity.  This holds for every state reachable
from the constructor via precondition-respecting operations. -/
def WF (pf : PortfolioModel) : Prop :=
  (pf.holdings.map Holding.symbol).Nodup ∧ ∀ h ∈ pf.holdings, 0 < h.quantity

/-- Transaction type tag. -/
inductive TxType where
  | BUY
  | SELL
deriving Repr, DecidableEq

/-- A ledger transaction (`Transaction` in `src/types`); `id`, `timestamp`
and the fixed `reasoning` string are omitted (no arithmetic content). -/
structure Transaction where
  portfolioId : String
  symbol : String
  type : TxType
  quantity : ℚ
  price : ℚ
deriving Repr, DecidableEq

/-- Recommendation action tag. -/
inductive RecAction where
  | BUY
  | SELL
  | HOLD
deriving Repr, DecidableEq

/-- An `InvestmentRecommendation`: `quantity` is optional (`undefined` until
derived); `executedAtStamped` models the assignment of `executedAt`;
`score`, `confidence` and `reasoning` are omitted. -/
structure Recommendation where
  id : String
  portfolioId : String
  symbol : String
  action : RecAction
  quantity : Option ℚ
  executed : Bool
  executedAtStamped : Bool
deriving Repr, DecidableEq

/-- The in-memory state of `PortfolioManager`: the portfolio map, the
transaction log, and the recommendation list.  File persistence rewrites
these collections wholesale and is not modelled. -/
structure ManagerState where
  portfolios : List (String × PortfolioModel)
  transactions : List Transaction
  recommendations : List Recommendation
deriving Repr, DecidableEq

/-- Replace the portfolio stored under a key: the functional image of
mutating the `PortfolioModel` object obtained from `this.portfolios.get`. -/
def setPortfolio (ps : List (String × PortfolioModel)) (portfolioId : String)
    (pf : PortfolioModel) : List (String × PortfolioModel) :=
  match ps with
  | [] => []
  | p :: t =>
    if p.1 == portfolioId then (p.1, pf) :: t else p :: setPortfolio t portfolioId pf

/-- Apply `f` to the first recommendation with the given id: the functional
image of mutating the object returned by `this.recommendations.find`. -/
def updateRec (recs : List Recommendation) (recommendationId : String)
    (f : Recommendation → Recommendation) : List Recommendation :=
  match recs with
  | [] => []
  | r :: t =>
    if r.id == recommendationId then f r :: t else r :: updateRec t recommendationId f

/-- JS falsiness of an optional quantity: `undefined` and `0` are falsy. -/
def recQtyFalsy : Option ℚ → Bool
  | none => true
  | some q => q == 0

/-- `PortfolioManager.buyStock(portfolioId, symbol, quantity)`: resolve the
portfolio, fetch the current price from the market-data collaborator
(`getPrice`, `none` = provider failure), check funds, delegate to
`addHolding`, and append a BUY transaction. -/
def buyStock (getPrice : String → Option ℚ) (st : ManagerState)
    (portfolioId symbol : String) (quantity : ℚ) : Except Err ManagerState :=
  match st.portfolios.lookup portfolioId with
  | none => .error .portfolioNotFound
  | some pf =>
    match getPrice symbol with
    | none => .error .providerError
    | some price =>
      let totalCost := quantity * price
      if totalCost > pf.currentCash then
        .error .insufficientFunds
      else
        match addHolding pf symbol quantity price with
        | .error e => .error e
        | .ok pf2 =>
          .ok { st with
                portfolios := setPortfolio st.portfolios portfolioId pf2
                transactions := st.transactions ++
                  [{ portfolioId := portfolioId, symbol := symbol, type := .BUY,
                     quantity := quantity, price := price }] }

/-- `PortfolioManager.sellStock(portfolioId, symbol, quantity)`: resolve the
portfolio, fetch the price, delegate to `removeHolding` (which validates
share availability itself), and append a SELL transaction. -/
def sellStock (getPrice : String → Option ℚ) (st : ManagerState)
    (portfolioId symbol : String) (quantity : ℚ) : Except Err ManagerState :=
  match st.portfolios.lookup portfolioId with
  | none => .error .portfolioNotFound
  | some pf =>
    match getPrice symbol with
    | none => .error .providerError
    | some price =>
      match removeHolding pf symbol quantity price with
      | .error e => .error e
      | .ok pf2 =>
        .ok { st with
              portfolios := setPortfolio st.portfolios portfolioId pf2
              transactions := st.transactions ++
                [{ portfolioId := portfolioId, symbol := symbol, type := .SELL,
                   quantity := quantity, price := price }] }

/-- `PortfolioManager.getPortfolioPerformance(portfolioId)`: with no
holdings, short-circuit to degenerate metrics computed from cash alone
(still dividing by `initialCapital` unguarded); otherwise batch-fetch prices
for the held symbols and delegate to `calculateTotalValue`. -/
def getPortfolioPerformance (getBatchPrices : List String → List (String × ℚ))
    (st : ManagerState) (portfolioId : String) :
    Except Err (PerformanceMetrics × ManagerState) :=
  match st.portfolios.lookup portfolioId with
  | none => .error .portfolioNotFound
  | some pf =>
    if pf.holdings.isEmpty then
      .ok ({ totalValue := pf.currentCash
             totalReturns := pf.currentCash - pf.initialCapital
             percentageReturns :=
               jsMul100 (jsDiv (pf.currentCash - pf.initialCapital) pf.initialCapital)
             unrealizedGains := 0
             realizedGains := 0 }, st)
    else
      let res := calculateTotalValue pf (getBatchPrices (pf.holdings.map Holding.symbol))
      .ok (res.1, { st with portfolios := setPortfolio st.portfolios portfolioId res.2 })

/-- `PortfolioManager.executeRecommendation(recommendationId)`: fail if the
recommendation is missing or already executed; for a BUY with a falsy
quantity, derive `floor(currentCash * 0.1 / price)` and store it on the
recommendation; dispatch to `buyStock`/`sellStock` when the action matches
and the quantity is truthy; finally mark the recommendation executed and
stamp `executedAt`.  The result pairs the error (if any) with the state,
because the in-place quantity mutation survives a later throw.  (The source
divides by the fetched price with no guard; the `price = 0` case is junk in
both.) -/
def executeRecommendation (getPrice : String → Option ℚ) (st : ManagerState)
    (recommendationId : String) : Option Err × ManagerState :=
  match st.recommendations.find? (fun r => r.id == recommendationId) with
  | none => (some .recommendationNotFound, st)
  | some recommendation =>
    if recommendation.executed then
      (some .alreadyExecuted, st)
    else
      match st.portfolios.lookup recommendation.portfolioId with
      | none => (some .portfolioNotFound, st)
      | some pf =>
        match (if recQtyFalsy recommendation.quantity && recommendation.action == .BUY then
                 match getPrice recommendation.symbol with
                 | none => .error Err.providerError
                 | some price =>
                   let newQty : ℚ := ((⌊pf.currentCash * (1/10 : ℚ) / price⌋ : ℤ) : ℚ)
                   let recs2 := updateRec st.recommendations recommendationId
                     (fun r => { r with quantity := some newQty })
                   .ok ({ st with recommendations := recs2 }, some newQty)
               else
                 .ok (st, recommendation.quantity) :
                 Except Err (ManagerState × Option ℚ)) with
        | .error e => (some e, st)
        | .ok (st1, newQty) =>
          match (if recommendation.action == .BUY && !(recQtyFalsy newQty) then
                   buyStock getPrice st1 recommendation.portfolioId
                     recommendation.symbol (newQty.getD 0)
                 else if recommendation.action == .SELL && !(recQtyFalsy newQty) then
                   sellStock getPrice st1 recommendation.portfolioId
                     recommendation.symbol (newQty.getD 0)
                 else .ok st1 : Except Err ManagerState) with
          | .error e => (some e, st1)
          | .ok st2 =>
            let recs3 := updateRec st2.recommendations recommendationId
              (fun r => { r with executed := true, executedAtStamped := true })
            (none, { st2 with recommendations := recs3 })

/-! ### Helper lemmas about the holdings list -/

/-- `Σ quantity * averageCost` over a list of holdings. -/
def listBasis (l : List Holding) : ℚ :=
  (l.map (fun h => h.quantity * h.averageCost)).sum

@[simp]
theorem listBasis_nil : listBasis [] = 0 := rfl

@[simp]
theorem listBasis_cons (h : Holding) (t : List Holding) :
    listBasis (h :: t) = h.quantity * h.averageCost + listBasis t := by
  simp [listBasis]

theorem costBasisSum_eq_listBasis (pf : PortfolioModel) :
    costBasisSum pf = listBasis pf.holdings := rfl

@[simp]
theorem listBasis_append (l₁ l₂ : List Holding) :
    listBasis (l₁ ++ l₂) = listBasis l₁ + listBasis l₂ := by
  simp [listBasis]

@[simp]
theorem updateFirst_nil (s : String) (f : Holding → Holding) :
    updateFirst [] s f = [] := rfl

theorem updateFirst_cons (hd : Holding) (t : List Holding) (s : String)
    (f : Holding → Holding) :
    updateFirst (hd :: t) s f =
      if hd.symbol == s then f hd :: t else hd :: updateFirst t s f := rfl

theorem listBasis_updateFirst (s : String) (f : Holding → Holding)
    (l : List Holding) (h0 : Holding)
    (hf : l.find? (fun h => h.symbol == s) = some h0) :
    listBasis (updateFirst l s f) =
      listBasis l - h0.quantity * h0.averageCost +
        (f h0).quantity * (f h0).averageCost := by
  induction l with
  | nil => simp at hf
  | cons hd t ih =>
    by_cases hhd : hd.symbol == s
    · rw [List.find?_cons_of_pos (p := fun (h : Holding) => h.symbol == s) _ hhd] at hf
      obtain rfl : hd = h0 := by injection hf
      rw [updateFirst_cons, if_pos hhd]
      simp
      ring
    · rw [List.find?_cons_of_neg (p := fun (h : Holding) => h.symbol == s) _ hhd] at hf
      rw [updateFirst_cons, if_neg hhd]
      simp [ih hf]
      ring

theorem map_symbol_updateFirst (s : String) (f : Holding → Holding)
    (hf : ∀ h, (f h).symbol = h.symbol) (l : List Holding) :
    (updateFirst l s f).map Holding.symbol = l.map Holding.symbol := by
  induction l with
  | nil => rfl
  | cons hd t ih =>
    rw [updateFirst_cons]
    by_cases hhd : hd.symbol == s
    · rw [if_pos hhd]; simp [hf]
    · rw [if_neg hhd]; simp [ih]

theorem mem_updateFirst {s : String} {f : Holding → Holding} {l : List Holding}
    {x : Holding} (hx : x ∈ updateFirst l s f) :
    x ∈ l ∨ ∃ h0, l.find? (fun h => h.symbol == s) = some h0 ∧ x = f h0 := by
  induction l with
  | nil => simp [updateFirst] at hx
  | cons hd t ih =>
    rw [updateFirst_cons] at hx
    by_cases hhd : hd.symbol == s
    · rw [if_pos hhd] at hx
      rcases List.mem_cons.1 hx with hx | hx
      · exact Or.inr ⟨hd, List.find?_cons_of_pos (p := fun (h : Holding) => h.symbol == s) _ hhd, hx⟩
      · exact Or.inl (List.mem_cons_of_mem _ hx)
    · rw [if_neg hhd] at hx
      rcases List.mem_cons.1 hx with hx | hx
      · exact Or.inl (hx ▸ List.mem_cons_self _ _)
      · rcases ih hx with hx' | ⟨h0, hfind, hxf⟩
        · exact Or.inl (List.mem_cons_of_mem _ hx')
        · exact Or.inr ⟨h0, by rw [List.find?_cons_of_neg (p := fun (h : Holding) => h.symbol == s) _ hhd]; exact hfind, hxf⟩

theorem find?_updateFirst (s : String) (f : Holding → Holding)
    (hf : ∀ h, (f h).symbol = h.symbol) (l : List Holding) :
    (updateFirst l s f).find? (fun h => h.symbol == s) =
      (l.find? (fun h => h.symbol == s)).map f := by
  induction l with
  | nil => rfl
  | cons hd t ih =>
    rw [updateFirst_cons]
    by_cases hhd : hd.symbol == s
    · rw [if_pos hhd, List.find?_cons_of_pos (p := fun (h : Holding) => h.symbol == s) _ hhd,
        List.find?_cons_of_pos (p := fun (h : Holding) => h.symbol == s) _ (by simpa [hf] using hhd)]
      rfl
    · rw [if_neg hhd, List.find?_cons_of_neg (p := fun (h : Holding) => h.symbol == s) _ hhd, List.find?_cons_of_neg (p := fun (h : Holding) => h.symbol == s) _ hhd, ih]

theorem filter_eq_self_of_not_mem_symbol {s : String} {l : List Holding}
    (hs : s ∉ l.map Holding.symbol) :
    l.filter (fun h => !(h.symbol == s)) = l := by
  apply List.filter_eq_self.2
  intro x hx
  simp only [Bool.not_eq_true', beq_eq_false_iff_ne, ne_eq]
  intro hxs
  exact hs (hxs ▸ List.mem_map_of_mem Holding.symbol hx)

theorem listBasis_filter_of_nodup {s : String} {l : List Holding} {h0 : Holding}
    (hnd : (l.map Holding.symbol).Nodup)
    (hf : l.find? (fun h => h.symbol == s) = some h0) :
    listBasis (l.filter (fun h => !(h.symbol == s))) =
      listBasis l - h0.quantity * h0.averageCost := by
  induction l with
  | nil => simp at hf
  | cons hd t ih =>
    simp only [List.map_cons, List.nodup_cons] at hnd
    by_cases hhd : hd.symbol == s
    · rw [List.find?_cons_of_pos (p := fun (h : Holding) => h.symbol == s) _ hhd] at hf
      obtain rfl : hd = h0 := by injection hf
      have hs : s ∉ t.map Holding.symbol := by
        have : hd.symbol = s := by simpa using hhd
        exact this ▸ hnd.1
      rw [List.filter_cons_of_neg (by simpa using hhd),
        filter_eq_self_of_not_mem_symbol hs]
      simp
    · rw [List.find?_cons_of_neg (p := fun (h : Holding) => h.symbol == s) _ hhd] at hf
      rw [List.filter_cons_of_pos (by simpa using hhd)]
      simp [ih hnd.2 hf]
      ring

theorem find?_filter_self_none (s : String) (l : List Holding) :
    (l.filter (fun h => !(h.symbol == s))).find? (fun h => h.symbol == s) = none := by
  apply List.find?_eq_none.2
  intro x hx
  have := (List.mem_filter.1 hx).2
  simpa using this

/-! ### Case analysis of the ledger operations -/

theorem addHolding_of_gt {pf : PortfolioModel} {s : String} {q pr : ℚ}
    (h : pf.currentCash < q * pr) :
    addHolding pf s q pr = .error .insufficientFunds := by
  simp [addHolding, h]

theorem addHolding_of_le {pf : PortfolioModel} {s : String} {q pr : ℚ}
    (h : q * pr ≤ pf.currentCash) :
    addHolding pf s q pr =
      .ok { pf with holdings := buyHoldings pf.holdings s q pr
                    currentCash := pf.currentCash - q * pr } := by
  simp [addHolding, not_lt.2 h]

theorem addHolding_ok_inv {pf pf' : PortfolioModel} {s : String} {q pr : ℚ}
    (h : addHolding pf s q pr = .ok pf') :
    q * pr ≤ pf.currentCash ∧
      pf' = { pf with holdings := buyHoldings pf.holdings s q pr
                      currentCash := pf.currentCash - q * pr } := by
  by_cases hc : pf.currentCash < q * pr
  · rw [addHolding_of_gt hc] at h
    exact absurd h (by simp)
  · rw [addHolding_of_le (not_lt.1 hc)] at h
    injection h with h
    exact ⟨not_lt.1 hc, h.symm⟩

theorem removeHolding_of_none {pf : PortfolioModel} {s : String} {q pr : ℚ}
    (h : pf.holdings.find? (fun h => h.symbol == s) = none) :
    removeHolding pf s q pr = .error (.holdingNotFound s) := by
  simp [removeHolding, h]

theorem removeHolding_of_insufficient {pf : PortfolioModel} {s : String} {q pr : ℚ}
    {h0 : Holding} (h : pf.holdings.find? (fun h => h.symbol == s) = some h0)
    (hlt : h0.quantity < q) :
    removeHolding pf s q pr = .error .insufficientShares := by
  simp [removeHolding, h, hlt]

theorem removeHolding_of_le {pf : PortfolioModel} {s : String} {q pr : ℚ}
    {h0 : Holding} (h : pf.holdings.find? (fun h => h.symbol == s) = some h0)
    (hge : q ≤ h0.quantity) :
    removeHolding pf s q pr =
      .ok { pf with currentCash := pf.currentCash + q * pr
                    holdings := sellHoldings pf.holdings s q h0 } := by
  simp [removeHolding, h, not_lt.2 hge]

theorem removeHolding_ok_inv {pf pf' : PortfolioModel} {s : String} {q pr : ℚ}
    (h : removeHolding pf s q pr = .ok pf') :
    ∃ h0, pf.holdings.find? (fun h => h.symbol == s) = some h0 ∧ q ≤ h0.quantity ∧
      pf' = { pf with currentCash := pf.currentCash + q * pr
                      holdings := sellHoldings pf.holdings s q h0 } := by
  cases hfind : pf.holdings.find? (fun h => h.symbol == s) with
  | none =>
    rw [removeHolding_of_none hfind] at h
    exact absurd h (by simp)
  | some h0 =>
    by_cases hlt : h0.quantity < q
    · rw [removeHolding_of_insufficient hfind hlt] at h
      exact absurd h (by simp)
    · rw [removeHolding_of_le hfind (not_lt.1 hlt)] at h
      injection h with h
      exact ⟨h0, rfl, not_lt.1 hlt, h.symm⟩

/-! ### Cash conservation along operation sequences -/

theorem applyOp_ok_cash {pf pf' : PortfolioModel} {op : Op}
    (h : applyOp pf op = .ok pf') :
    pf'.currentCash = pf.currentCash - buyCost op + sellProceeds op ∧
      pf'.initialCapital = pf.initialCapital := by
  cases op with
  | buy s q pr =>
    obtain ⟨-, rfl⟩ := addHolding_ok_inv h
    simp [buyCost, sellProceeds]
  | sell s q pr =>
    obtain ⟨h0, -, -, rfl⟩ := removeHolding_ok_inv h
    simp [buyCost, sellProceeds]

theorem runOps_cash {ops : List Op} :
    ∀ {pf pf' : PortfolioModel}, runOps pf ops = .ok pf' →
      pf'.currentCash =
        pf.currentCash - (ops.map buyCost).sum + (ops.map sellProceeds).sum ∧
      pf'.initialCapital = pf.initialCapital := by
  induction ops with
  | nil =>
    intro pf pf' h
    injection h with h
    subst h
    simp
  | cons op ops ih =>
    intro pf pf' h
    rw [runOps] at h
    cases happ : applyOp pf op with
    | error e => rw [happ] at h; exact absurd h (by simp)
    | ok pf2 =>
      rw [happ] at h
      obtain ⟨hc, hi⟩ := applyOp_ok_cash happ
      obtain ⟨hc', hi'⟩ := ih h
      refine ⟨?_, by rw [hi', hi]⟩
      rw [hc', hc]
      simp
      ring

/-! ### Well-formedness preservation and the value-conservation invariant -/

theorem mergeBuy_symbol (q pr : ℚ) (h : Holding) : (mergeBuy q pr h).symbol = h.symbol := rfl

theorem mergeBuy_basis {q pr : ℚ} {h : Holding} (hne : h.quantity + q ≠ 0) :
    (mergeBuy q pr h).quantity * (mergeBuy q pr h).averageCost =
      h.quantity * h.averageCost + q * pr := by
  simp only [mergeBuy]
  field_simp
  ring

theorem find?_symbol_eq {s : String} {l : List Holding} {h0 : Holding}
    (h : l.find? (fun h => h.symbol == s) = some h0) : h0.symbol = s := by
  have := List.find?_some h
  simpa using this

theorem not_mem_symbol_of_find?_none {s : String} {l : List Holding}
    (h : l.find? (fun h => h.symbol == s) = none) : s ∉ l.map Holding.symbol := by
  intro hs
  obtain ⟨x, hx, hxs⟩ := List.mem_map.1 hs
  exact (List.find?_eq_none.1 h x hx) (by simp [hxs])

theorem applyOp_ok_WF {pf pf' : PortfolioModel} {op : Op} (hwf : WF pf)
    (hq : 0 < op.qty) (h : applyOp pf op = .ok pf') : WF pf' := by
  obtain ⟨hnd, hpos⟩ := hwf
  cases op with
  | buy s q pr =>
    obtain ⟨-, rfl⟩ := addHolding_ok_inv h
    simp only [Op.qty] at hq
    simp only [buyHoldings]
    cases hfind : pf.holdings.find? (fun h => h.symbol == s) with
    | some h0 =>
      constructor
      · simpa [map_symbol_updateFirst s _ (mergeBuy_symbol q pr)] using hnd
      · intro x hx
        rcases mem_updateFirst hx with hx | ⟨h1, hfind1, rfl⟩
        · exact hpos x hx
        · have h1mem := List.mem_of_find?_eq_some hfind1
          have : 0 < h1.quantity + q := by linarith [hpos h1 h1mem]
          simpa [mergeBuy] using this
    | none =>
      constructor
      · have hs := not_mem_symbol_of_find?_none hfind
        rw [List.map_append, List.nodup_append]
        refine ⟨hnd, List.nodup_singleton _, ?_⟩
        intro a ha hb
        simp only [List.map_cons, List.map_nil, List.mem_singleton] at hb
        subst hb
        exact hs ha
      · intro x hx
        rcases List.mem_append.1 hx with hx | hx
        · exact hpos x hx
        · obtain rfl : x = { symbol := s, quantity := q, averageCost := pr } := by
            simpa using hx
          simpa using hq
  | sell s q pr =>
    obtain ⟨h0, hfind, hge, rfl⟩ := removeHolding_ok_inv h
    simp only [Op.qty] at hq
    simp only [sellHoldings]
    by_cases hful : h0.quantity = q
    · rw [if_pos hful]
      constructor
      · exact hnd.sublist (List.Sublist.map _ (List.filter_sublist _))
      · intro x hx
        exact hpos x (List.mem_of_mem_filter hx)
    · rw [if_neg hful]
      constructor
      · rw [map_symbol_updateFirst s (fun h => { h with quantity := h.quantity - q })
          (fun h => rfl)]
        exact hnd
      · intro x hx
        rcases mem_updateFirst hx with hx | ⟨h1, hfind1, rfl⟩
        · exact hpos x hx
        · have hh : h1 = h0 := by
            rw [hfind] at hfind1
            injection hfind1 with hh
            exact hh.symm
          subst hh
          have : q < h1.quantity := lt_of_le_of_ne hge (fun hh2 => hful hh2.symm)
          simpa using this

theorem applyOp_ok_invariant {pf pf' : PortfolioModel} {op : Op} (hwf : WF pf)
    (hq : 0 < op.qty) (h : applyOp pf op = .ok pf') :
    pf'.currentCash + listBasis pf'.holdings =
      pf.currentCash + listBasis pf.holdings + realizedGain pf op := by
  obtain ⟨hnd, hpos⟩ := hwf
  cases op with
  | buy s q pr =>
    obtain ⟨-, rfl⟩ := addHolding_ok_inv h
    simp only [Op.qty] at hq
    simp only [buyHoldings, realizedGain]
    cases hfind : pf.holdings.find? (fun h => h.symbol == s) with
    | some h0 =>
      have h0mem := List.mem_of_find?_eq_some hfind
      have hne : h0.quantity + q ≠ 0 := by linarith [hpos h0 h0mem]
      simp only [listBasis_updateFirst s _ _ h0 hfind, mergeBuy_basis hne]
      ring
    | none =>
      simp
  | sell s q pr =>
    obtain ⟨h0, hfind, hge, rfl⟩ := removeHolding_ok_inv h
    simp only [Op.qty] at hq
    simp only [sellHoldings, realizedGain, hfind]
    by_cases hful : h0.quantity = q
    · rw [if_pos hful]
      simp only [listBasis_filter_of_nodup hnd hfind]
      rw [hful]
      ring
    · rw [if_neg hful]
      simp only [listBasis_updateFirst s _ _ h0 hfind]
      ring

theorem runOpsRealized_invariant {ops : List Op} :
    ∀ {pf : PortfolioModel} {acc : ℚ} {pf' : PortfolioModel} {total : ℚ},
      WF pf → (∀ op ∈ ops, 0 < op.qty) →
      runOpsRealized pf acc ops = .ok (pf', total) →
      pf'.currentCash + listBasis pf'.holdings - total =
        pf.currentCash + listBasis pf.holdings - acc := by
  induction ops with
  | nil =>
    intro pf acc pf' total hwf hq h
    rw [runOpsRealized] at h
    injection h with h
    injection h with h1 h2
    subst h1
    subst h2
    rfl
  | cons op ops ih =>
    intro pf acc pf' total hwf hq h
    rw [runOpsRealized] at h
    cases happ : applyOp pf op with
    | error e => rw [happ] at h; exact absurd h (by simp)
    | ok pf2 =>
      rw [happ] at h
      have hq0 := hq op (List.mem_cons_self _ _)
      have hwf2 := applyOp_ok_WF hwf hq0 happ
      have hstep := applyOp_ok_invariant hwf hq0 happ
      have htail := ih hwf2 (fun o ho => hq o (List.mem_cons_of_mem _ ho)) h
      rw [htail, hstep]
      ring

/-! ### Characterization of the valuation loop -/

theorem jsOrElse_lookup_eq_priceUsed (m : List (String × ℚ)) (h : Holding) :
    jsOrElse (m.lookup h.symbol) h.averageCost = priceUsed m h := by
  cases hl : m.lookup h.symbol <;> simp [jsOrElse, priceUsed, hl]

theorem foldl_valuationStep (m : List (String × ℚ)) (l : List Holding) :
    ∀ acc : ℚ × ℚ × List Holding,
      l.foldl (valuationStep m) acc =
        (acc.1 + (l.map (fun h => h.quantity * priceUsed m h)).sum,
         acc.2.1 + (l.map (fun h => h.quantity * priceUsed m h -
           h.quantity * h.averageCost)).sum,
         acc.2.2 ++ l.map (fun h => { h with currentPrice := some (priceUsed m h) })) := by
  induction l with
  | nil => intro acc; simp
  | cons hd t ih =>
    intro acc
    rw [List.foldl_cons, ih]
    simp only [valuationStep, jsOrElse_lookup_eq_priceUsed, List.map_cons, List.sum_cons,
      Prod.mk.injEq, List.append_assoc, List.singleton_append]
    refine ⟨by ring, by ring, trivial⟩

/-! ### Helper lemmas for the manager layer -/

theorem find?_append_of_none {α : Type} {p : α → Bool} {l₁ l₂ : List α}
    (h : l₁.find? p = none) : (l₁ ++ l₂).find? p = l₂.find? p := by
  induction l₁ with
  | nil => rfl
  | cons hd t ih =>
    rw [List.find?_cons] at h
    cases hp : p hd with
    | true => rw [hp] at h; exact absurd h (by simp)
    | false =>
      rw [hp] at h
      rw [List.cons_append, List.find?_cons, hp]
      exact ih h

theorem find?_updateRec (recs : List Recommendation) (rid : String)
    (f : Recommendation → Recommendation) (hf : ∀ r, (f r).id = r.id) :
    (updateRec recs rid f).find? (fun r => r.id == rid) =
      (recs.find? (fun r => r.id == rid)).map f := by
  induction recs with
  | nil => rfl
  | cons hd t ih =>
    rw [updateRec]
    by_cases hhd : hd.id == rid
    · rw [if_pos hhd, List.find?_cons_of_pos (p := fun (r : Recommendation) => r.id == rid) _ hhd,
        List.find?_cons_of_pos (p := fun (r : Recommendation) => r.id == rid) _
          (by simpa [hf] using hhd)]
      rfl
    · rw [if_neg hhd, List.find?_cons_of_neg (p := fun (r : Recommendation) => r.id == rid) _ hhd,
        List.find?_cons_of_neg (p := fun (r : Recommendation) => r.id == rid) _ hhd, ih]

theorem updateRec_transactions_portfolios (st : ManagerState) (rid : String)
    (f : Recommendation → Recommendation) :
    ({ st with recommendations := updateRec st.recommendations rid f } :
      ManagerState).transactions = st.transactions := rfl

theorem floor_tenth_eq_zero {cash price : ℚ} (hc : 0 ≤ cash) (hp : cash * (1/10) < price)
    (hppos : 0 < price) : (⌊cash * (1/10 : ℚ) / price⌋ : ℤ) = 0 := by
  rw [Int.floor_eq_zero_iff]
  constructor
  · positivity
  · rw [div_lt_one hppos]
    exact hp

/-! ### The claimed properties -/

/-- C1: for every sequence of `addHolding`/`removeHolding` operations whose
preconditions hold (i.e. the run succeeds), `currentCash` equals
`initialCapital − Σ(buy quantity*price) + Σ(sell quantity*price)`, and a
freshly created portfolio starts with `currentCash = initialCapital`. -/
theorem C1_cash_equals_capital_minus_buys_plus_sells (c : ℚ) (ops : List Op)
    (pf' : PortfolioModel) (h : runOps (mkPortfolioModel c) ops = .ok pf') :
    (mkPortfolioModel c).currentCash = c ∧
    pf'.currentCash = c - (ops.map buyCost).sum + (ops.map sellProceeds).sum := by
  obtain ⟨hc, -⟩ := runOps_cash h
  exact ⟨rfl, by simpa [mkPortfolioModel] using hc⟩

/-- Witness for C1 at a concrete run: buy 10 @ 100 then sell 5 @ 120 from
10000 of capital leaves 9600 = 10000 − 1000 + 600 in cash. -/
theorem C1_witness :
    runOps (mkPortfolioModel 10000) [Op.buy "A" 10 100, Op.sell "A" 5 120] =
      .ok { initialCapital := 10000, currentCash := 9600,
            holdings := [{ symbol := "A", quantity := 5, averageCost := 100 }] } ∧
    ((mkPortfolioModel 10000).currentCash = 10000 ∧
      ({ initialCapital := 10000, currentCash := 9600,
         holdings := [{ symbol := "A", quantity := 5, averageCost := 100 }] } :
        PortfolioModel).currentCash =
        10000 - ([Op.buy "A" 10 100, Op.sell "A" 5 120].map buyCost).sum +
          (([Op.buy "A" 10 100, Op.sell "A" 5 120]).map sellProceeds).sum) := by
  have h : runOps (mkPortfolioModel 10000) [Op.buy "A" 10 100, Op.sell "A" 5 120] =
      .ok { initialCapital := 10000, currentCash := 9600,
            holdings := [{ symbol := "A", quantity := 5, averageCost := 100 }] } := by
    norm_num [runOps, applyOp, addHolding, removeHolding, buyHoldings, sellHoldings,
      mergeBuy, updateFirst, mkPortfolioModel, List.find?]
  exact ⟨h, C1_cash_equals_capital_minus_buys_plus_sells 10000 _ _ h⟩

/-- C2: a buy whose total cost strictly exceeds `currentCash` raises the
insufficient-funds error from `addHolding` as well as from
`PortfolioManager.buyStock`, before any mutation; in this state-passing
embedding an error result leaves the portfolio (cash and every holding)
exactly unchanged. -/
theorem C2_insufficient_funds_no_mutation (pf : PortfolioModel) (s : String) (q pr : ℚ)
    (h : pf.currentCash < q * pr) :
    addHolding pf s q pr = .error .insufficientFunds ∧
    ∀ (g : String → Option ℚ) (st : ManagerState) (pid : String),
      st.portfolios.lookup pid = some pf → g s = some pr →
      buyStock g st pid s q = .error .insufficientFunds := by
  refine ⟨addHolding_of_gt h, ?_⟩
  intro g st pid hlk hg
  simp [buyStock, hlk, hg, h]

/-- Witness for C2: buying 10 @ 100 with only 100 of cash fails. -/
theorem C2_witness :
    ((mkPortfolioModel 100).currentCash < 10 * 100) ∧
    (addHolding (mkPortfolioModel 100) "A" 10 100 = .error .insufficientFunds ∧
      ∀ (g : String → Option ℚ) (st : ManagerState) (pid : String),
        st.portfolios.lookup pid = some (mkPortfolioModel 100) → g "A" = some 100 →
        buyStock g st pid "A" 10 = .error .insufficientFunds) := by
  refine ⟨by norm_num [mkPortfolioModel], ?_⟩
  exact C2_insufficient_funds_no_mutation (mkPortfolioModel 100) "A" 10 100
    (by norm_num [mkPortfolioModel])

/-- C3: a funded buy of an existing holding yields the weighted-average
cost `(oldAvg*oldQty + price*quantity)/(oldQty+quantity)`, the summed
quantity, and cash reduced by `quantity*price`; with no existing holding a
new one is created with `averageCost = price`. -/
theorem C3_weighted_average (pf : PortfolioModel) (s : String) (q pr : ℚ)
    (hfunds : q * pr ≤ pf.currentCash) :
    (∀ h0, pf.holdings.find? (fun h => h.symbol == s) = some h0 →
      ∃ pf', addHolding pf s q pr = .ok pf' ∧
        pf'.currentCash = pf.currentCash - q * pr ∧
        pf'.holdings.find? (fun h => h.symbol == s) =
          some { h0 with
                 quantity := h0.quantity + q
                 averageCost := (h0.averageCost * h0.quantity + pr * q) /
                   (h0.quantity + q) }) ∧
    (pf.holdings.find? (fun h => h.symbol == s) = none →
      ∃ pf', addHolding pf s q pr = .ok pf' ∧
        pf'.currentCash = pf.currentCash - q * pr ∧
        pf'.holdings.find? (fun h => h.symbol == s) =
          some { symbol := s, quantity := q, averageCost := pr, currentPrice := none }) := by
  constructor
  · intro h0 hfind
    refine ⟨_, addHolding_of_le hfunds, rfl, ?_⟩
    simp only [buyHoldings, hfind]
    rw [find?_updateFirst s _ (mergeBuy_symbol q pr), hfind]
    simp [mergeBuy]
  · intro hfind
    refine ⟨_, addHolding_of_le hfunds, rfl, ?_⟩
    simp only [buyHoldings, hfind]
    rw [find?_append_of_none hfind]
    simp

/-- Witness for C3, realizing the spec's example: after buying 10 @ 100,
a further funded buy of 10 @ 200 yields quantity 20 and average cost 150. -/
theorem C3_witness :
    ((10 : ℚ) * 200 ≤ 9000) ∧
    (∃ pf', addHolding { initialCapital := 10000, currentCash := 9000,
                         holdings := [{ symbol := "AAPL", quantity := 10,
                                        averageCost := 100 }] }
        "AAPL" 10 200 = .ok pf' ∧
      pf'.currentCash = 9000 - 10 * 200 ∧
      pf'.holdings.find? (fun h => h.symbol == "AAPL") =
        some { symbol := "AAPL", quantity := 20, averageCost := 150,
               currentPrice := none }) := by
  refine ⟨by norm_num, ?_⟩
  obtain ⟨pf', h1, h2, h3⟩ :=
    (C3_weighted_average
      { initialCapital := 10000, currentCash := 9000,
        holdings := [{ symbol := "AAPL", quantity := 10, averageCost := 100 }] }
      "AAPL" 10 200 (by norm_num)).1
      { symbol := "AAPL", quantity := 10, averageCost := 100, currentPrice := none }
      (by simp [List.find?])
  refine ⟨pf', h1, h2, ?_⟩
  rw [h3]
  norm_num

/-- C4: `removeHolding` raises holding-not-found when the symbol is absent
and insufficient-shares when more than the held quantity is sold, in both
cases returning an error (state unchanged in this state-passing embedding);
a full sale removes the holding entirely (no zero-quantity residue), a
partial sale decrements the quantity leaving `averageCost` unchanged, and
every success adds `quantity*price` to cash. -/
theorem C4_remove_holding_cases (pf : PortfolioModel) (s : String) (q pr : ℚ) :
    (pf.holdings.find? (fun h => h.symbol == s) = none →
      removeHolding pf s q pr = .error (.holdingNotFound s)) ∧
    (∀ h0, pf.holdings.find? (fun h => h.symbol == s) = some h0 → h0.quantity < q →
      removeHolding pf s q pr = .error .insufficientShares) ∧
    (∀ h0, pf.holdings.find? (fun h => h.symbol == s) = some h0 → h0.quantity = q →
      ∃ pf', removeHolding pf s q pr = .ok pf' ∧
        pf'.currentCash = pf.currentCash + q * pr ∧
        pf'.holdings.find? (fun h => h.symbol == s) = none) ∧
    (∀ h0, pf.holdings.find? (fun h => h.symbol == s) = some h0 → q < h0.quantity →
      ∃ pf', removeHolding pf s q pr = .ok pf' ∧
        pf'.currentCash = pf.currentCash + q * pr ∧
        pf'.holdings.find? (fun h => h.symbol == s) =
          some { h0 with quantity := h0.quantity - q }) := by
  refine ⟨removeHolding_of_none, fun h0 hfind hlt => removeHolding_of_insufficient hfind hlt,
    ?_, ?_⟩
  · intro h0 hfind hful
    refine ⟨_, removeHolding_of_le hfind hful.ge, rfl, ?_⟩
    simp only [sellHoldings, if_pos hful]
    exact find?_filter_self_none s pf.holdings
  · intro h0 hfind hlt
    refine ⟨_, removeHolding_of_le hfind hlt.le, rfl, ?_⟩
    simp only [sellHoldings, if_neg (ne_of_gt hlt)]
    rw [find?_updateFirst s (fun h => { h with quantity := h.quantity - q }) (fun h => rfl),
      hfind]
    rfl

/-- Witness for C4: with a 5-share holding, selling all 5 removes it and
credits the proceeds. -/
theorem C4_witness :
    (([{ symbol := "A", quantity := 5, averageCost := 100,
         currentPrice := none }] : List Holding).find? (fun h => h.symbol == "A") =
      some { symbol := "A", quantity := 5, averageCost := 100, currentPrice := none }) ∧
    ((5 : ℚ) = 5) ∧
    (∃ pf', removeHolding { initialCapital := 1000, currentCash := 500,
                            holdings := [{ symbol := "A", quantity := 5,
                                           averageCost := 100 }] } "A" 5 120 = .ok pf' ∧
      pf'.currentCash = 500 + 5 * 120 ∧
      pf'.holdings.find? (fun h => h.symbol == "A") = none) := by
  refine ⟨by simp [List.find?], rfl, ?_⟩
  exact (C4_remove_holding_cases
      { initialCapital := 1000, currentCash := 500,
        holdings := [{ symbol := "A", quantity := 5, averageCost := 100 }] }
      "A" 5 120).2.2.1
    { symbol := "A", quantity := 5, averageCost := 100, currentPrice := none }
    (by simp [List.find?]) rfl

/-- Counterexample to C5 as stated: with the symbol "A" present in the
price map at price 0, `calculateTotalValue` does not use the mapped price
(which would give totalValue = 0 + 1*0 = 0): the JS `||` fallback treats
the falsy price 0 as absent and uses `averageCost`, giving totalValue 10. -/
theorem C5_counterexample :
    ([(("A" : String), (0 : ℚ))].lookup "A" = some 0) ∧
    (calculateTotalValue
      { initialCapital := 100, currentCash := 0,
        holdings := [{ symbol := "A", quantity := 1, averageCost := 10 }] }
      [("A", 0)]).1.totalValue = 10 ∧
    ((10 : ℚ) ≠ 0 + 1 * 0) := by
  refine ⟨by simp [List.lookup], ?_, by norm_num⟩
  norm_num [calculateTotalValue, valuationStep, jsOrElse, List.lookup]

/-- C5 amended: `calculateTotalValue` uses the mapped price when the symbol
is present with a nonzero (JS-truthy) price and falls back to `averageCost`
when the symbol is absent or maps to 0 (`priceUsed`); with that price it
returns `totalValue = currentCash + Σ quantity*priceUsed` and
`unrealizedGains = Σ (quantity*priceUsed − quantity*averageCost)`,
overwrites each holding's `currentPrice` with the price used, leaves cash
and capital untouched, and, being a total function, never fails on a
missing entry (such a holding contributes zero unrealized gain since
`priceUsed = averageCost`). -/
theorem C5_amended_valuation (pf : PortfolioModel) (m : List (String × ℚ)) :
    (calculateTotalValue pf m).1.totalValue =
      pf.currentCash + (pf.holdings.map (fun h => h.quantity * priceUsed m h)).sum ∧
    (calculateTotalValue pf m).1.unrealizedGains =
      (pf.holdings.map (fun h => h.quantity * priceUsed m h -
        h.quantity * h.averageCost)).sum ∧
    (calculateTotalValue pf m).2.holdings =
      pf.holdings.map (fun h => { h with currentPrice := some (priceUsed m h) }) ∧
    (calculateTotalValue pf m).2.currentCash = pf.currentCash ∧
    (calculateTotalValue pf m).2.initialCapital = pf.initialCapital ∧
    (∀ h ∈ pf.holdings, m.lookup h.symbol = none → priceUsed m h = h.averageCost) := by
  refine ⟨?_, ?_, ?_, rfl, rfl, ?_⟩
  · simp [calculateTotalValue, foldl_valuationStep]
  · simp [calculateTotalValue, foldl_valuationStep]
  · simp [calculateTotalValue, foldl_valuationStep]
  · intro h hmem hnone
    simp [priceUsed, hnone]

/-- C6 is the spec's intent but the code omits the guard: with
`initialCapital = 0` neither `calculateTotalValue` nor the empty-holdings
path of `getPortfolioPerformance` returns `percentageReturns = 0`; both
compute `(totalReturns / 0) * 100`, which in JavaScript is `NaN` here
(or ±Infinity when `totalReturns ≠ 0`), never the specified 0.  For
nonzero capital the formula of the claim does hold (see the amended-free
second conjunct of `calculateTotalValue`'s definition). -/
theorem C6_zero_capital_division_bug :
    (calculateTotalValue { initialCapital := 0, currentCash := 0, holdings := [] }
      []).1.percentageReturns = JSNum.nan ∧
    getPortfolioPerformance (fun _ => [])
      { portfolios := [("p1", { initialCapital := 0, currentCash := 0, holdings := [] })],
        transactions := [], recommendations := [] } "p1" =
      .ok ({ totalValue := 0, totalReturns := 0, percentageReturns := JSNum.nan,
             unrealizedGains := 0, realizedGains := 0 },
           { portfolios := [("p1", { initialCapital := 0, currentCash := 0,
                                     holdings := [] })],
             transactions := [], recommendations := [] }) ∧
    JSNum.nan ≠ JSNum.finite 0 := by
  refine ⟨?_, ?_, by simp⟩
  · norm_num [calculateTotalValue, jsDiv, jsMul100]
  · norm_num [getPortfolioPerformance, jsDiv, jsMul100, List.lookup]

/-- For nonzero `initialCapital` the percentage-returns formula of C6's
second half does hold in `calculateTotalValue`. -/
theorem percentageReturns_of_ne_zero (pf : PortfolioModel) (m : List (String × ℚ))
    (h : pf.initialCapital ≠ 0) :
    (calculateTotalValue pf m).1.percentageReturns =
      JSNum.finite (((calculateTotalValue pf m).1.totalValue - pf.initialCapital) /
        pf.initialCapital * 100) := by
  simp [calculateTotalValue, jsDiv, jsMul100, h]

/-- Counterexample to C7 as stated: after a single funded buy of 1 share at
10 from capital 100, `currentCash + Σ(quantity*averageCost)` is
`90 + 10 = 100`, while `initialCapital − Σ(buy totalCost) + Σ(sell
proceeds)` is `100 − 10 + 0 = 90`: a buy moves value from cash into the
holdings' cost basis, so the two sides differ by every open position. -/
theorem C7_counterexample :
    runOps (mkPortfolioModel 100) [Op.buy "A" 1 10] =
      .ok { initialCapital := 100, currentCash := 90,
            holdings := [{ symbol := "A", quantity := 1, averageCost := 10 }] } ∧
    ¬(({ initialCapital := 100, currentCash := 90,
         holdings := [{ symbol := "A", quantity := 1, averageCost := 10 }] } :
        PortfolioModel).currentCash +
      costBasisSum { initialCapital := 100, currentCash := 90,
                     holdings := [{ symbol := "A", quantity := 1, averageCost := 10 }] } =
      100 - ([Op.buy "A" 1 10].map buyCost).sum +
        ([Op.buy "A" 1 10].map sellProceeds).sum) := by
  constructor
  · norm_num [runOps, applyOp, addHolding, buyHoldings, mergeBuy, updateFirst,
      mkPortfolioModel, List.find?]
  · norm_num [costBasisSum, buyCost, sellProceeds]

/-- C7 amended: for precondition-respecting operation sequences with
positive quantities, `currentCash + Σ(quantity*averageCost)` equals
`initialCapital` plus the accumulated realized gains, i.e. plus
`Σ over sells of quantity*(price − averageCost at the time of the sale)`
(and buys contribute nothing) — no value leaks or is fabricated. -/
theorem C7_amended_value_conservation (c : ℚ) (ops : List Op) (pf' : PortfolioModel)
    (R : ℚ) (hq : ∀ op ∈ ops, 0 < op.qty)
    (h : runOpsRealized (mkPortfolioModel c) 0 ops = .ok (pf', R)) :
    pf'.currentCash + costBasisSum pf' = c + R := by
  have hwf : WF (mkPortfolioModel c) := by
    constructor <;> simp [mkPortfolioModel]
  have hinv := runOpsRealized_invariant hwf hq h
  rw [costBasisSum_eq_listBasis]
  simp [mkPortfolioModel] at hinv
  linarith

/-- Witness for C7 amended: buy 10 @ 100, sell 5 @ 120 realizes a gain of
100, and indeed `9600 + 500 = 10000 + 100`. -/
theorem C7_witness :
    (∀ op ∈ [Op.buy "A" 10 100, Op.sell "A" 5 120], 0 < op.qty) ∧
    runOpsRealized (mkPortfolioModel 10000) 0 [Op.buy "A" 10 100, Op.sell "A" 5 120] =
      .ok ({ initialCapital := 10000, currentCash := 9600,
             holdings := [{ symbol := "A", quantity := 5, averageCost := 100 }] }, 100) ∧
    ({ initialCapital := 10000, currentCash := 9600,
       holdings := [{ symbol := "A", quantity := 5, averageCost := 100 }] } :
      PortfolioModel).currentCash +
      costBasisSum { initialCapital := 10000, currentCash := 9600,
                     holdings := [{ symbol := "A", quantity := 5,
                                    averageCost := 100 }] } = 10000 + 100 := by
  have hq : ∀ op ∈ [Op.buy "A" 10 100, Op.sell "A" 5 120], 0 < op.qty := by
    intro op hop
    simp only [List.mem_cons, List.not_mem_nil, or_false] at hop
    rcases hop with rfl | rfl <;> norm_num [Op.qty]
  have h : runOpsRealized (mkPortfolioModel 10000) 0
      [Op.buy "A" 10 100, Op.sell "A" 5 120] =
      .ok ({ initialCapital := 10000, currentCash := 9600,
             holdings := [{ symbol := "A", quantity := 5, averageCost := 100 }] },
           100) := by
    norm_num [runOpsRealized, applyOp, realizedGain, addHolding, removeHolding,
      buyHoldings, sellHoldings, mergeBuy, updateFirst, mkPortfolioModel, List.find?]
  exact ⟨hq, h, C7_amended_value_conservation 10000 _ _ 100 hq h⟩

/-- C8: `executeRecommendation` on an already-executed recommendation fails
with the already-executed error and returns the state unchanged: no
transaction is appended, no portfolio is mutated, and the recommendation is
not re-stamped, so a recommendation transitions to executed at most once. -/
theorem C8_execute_at_most_once (g : String → Option ℚ) (st : ManagerState)
    (rid : String) (r : Recommendation)
    (hfind : st.recommendations.find? (fun x => x.id == rid) = some r)
    (hexec : r.executed = true) :
    executeRecommendation g st rid = (some .alreadyExecuted, st) := by
  simp [executeRecommendation, hfind, hexec]

/-- Witness for C8 on a one-recommendation state. -/
theorem C8_witness :
    (([{ id := "r1", portfolioId := "p1", symbol := "ACME", action := RecAction.BUY,
         quantity := some 3, executed := true, executedAtStamped := true }] :
      List Recommendation).find? (fun x => x.id == "r1") =
      some { id := "r1", portfolioId := "p1", symbol := "ACME",
             action := RecAction.BUY, quantity := some 3, executed := true,
             executedAtStamped := true }) ∧
    executeRecommendation (fun _ => some 10)
      { portfolios := [], transactions := [],
        recommendations := [{ id := "r1", portfolioId := "p1", symbol := "ACME",
                              action := RecAction.BUY, quantity := some 3,
                              executed := true, executedAtStamped := true }] } "r1" =
      (some .alreadyExecuted,
       { portfolios := [], transactions := [],
         recommendations := [{ id := "r1", portfolioId := "p1", symbol := "ACME",
                               action := RecAction.BUY, quantity := some 3,
                               executed := true, executedAtStamped := true }] }) := by
  refine ⟨by simp [List.find?], ?_⟩
  exact C8_execute_at_most_once (fun _ => some 10)
    { portfolios := [], transactions := [],
      recommendations := [{ id := "r1", portfolioId := "p1", symbol := "ACME",
                            action := RecAction.BUY, quantity := some 3,
                            executed := true, executedAtStamped := true }] }
    "r1"
    { id := "r1", portfolioId := "p1", symbol := "ACME", action := RecAction.BUY,
      quantity := some 3, executed := true, executedAtStamped := true }
    (by simp [List.find?]) rfl

/-- C9 is the spec's intent but no layer of `buyStock`/`sellStock`/
`addHolding`/`removeHolding` validates the quantity: buying −5 shares at
price 10 with 100 of cash raises no error at all — it records a holding of
quantity −5, *increases* cash to 150, and appends a BUY transaction (the
only non-positive-quantity check in the repository sits in the CLI layer,
which silently returns instead of surfacing a `ValidationError`). -/
theorem C9_negative_quantity_accepted :
    buyStock (fun _ => some 10)
      { portfolios := [("p1", { initialCapital := 100, currentCash := 100,
                                holdings := [] })],
        transactions := [], recommendations := [] } "p1" "ACME" (-5) =
      .ok { portfolios := [("p1", { initialCapital := 100, currentCash := 150,
                                    holdings := [{ symbol := "ACME", quantity := -5,
                                                   averageCost := 10 }] })],
            transactions := [{ portfolioId := "p1", symbol := "ACME", type := .BUY,
                               quantity := -5, price := 10 }],
            recommendations := [] } := by
  norm_num [buyStock, addHolding, buyHoldings, mergeBuy, updateFirst, setPortfolio,
    List.lookup, List.find?]

/-- C10: a BUY recommendation with no quantity set derives
`floor(0.1*currentCash/price)`; when the price exceeds 10% of cash that
floor is 0, so no trade happens and no transaction is appended, yet the
recommendation is still marked executed (with `executedAt` stamped),
permanently consuming it without any trade. -/
theorem C10_zero_quantity_still_consumed (g : String → Option ℚ) (st : ManagerState)
    (rid : String) (r : Recommendation) (pf : PortfolioModel) (pr : ℚ)
    (hfind : st.recommendations.find? (fun x => x.id == rid) = some r)
    (hexec : r.executed = false)
    (haction : r.action = RecAction.BUY)
    (hqty : r.quantity = none)
    (hlk : st.portfolios.lookup r.portfolioId = some pf)
    (hg : g r.symbol = some pr)
    (hcash : 0 ≤ pf.currentCash)
    (hpr : pf.currentCash * (1/10) < pr)
    (hppos : 0 < pr) :
    (⌊pf.currentCash * (1/10 : ℚ) / pr⌋ : ℤ) = 0 ∧
    (executeRecommendation g st rid).1 = none ∧
    (executeRecommendation g st rid).2.transactions = st.transactions ∧
    (executeRecommendation g st rid).2.portfolios = st.portfolios ∧
    (executeRecommendation g st rid).2.recommendations.find? (fun x => x.id == rid) =
      some { r with quantity := some 0, executed := true,
                    executedAtStamped := true } := by
  have hfloor := floor_tenth_eq_zero hcash hpr hppos
  have hre : executeRecommendation g st rid =
      (none,
       ManagerState.mk st.portfolios st.transactions
         (updateRec
           (updateRec st.recommendations rid (fun x => { x with quantity := some 0 }))
           rid
           (fun x => { x with executed := true, executedAtStamped := true }))) := by
    simp only [executeRecommendation, hfind, hexec, haction, hqty, hlk, hg, hfloor,
      recQtyFalsy, Bool.true_and, if_pos, beq_self_eq_true, Int.cast_zero,
      Bool.not_true, Bool.false_and, if_false, Bool.and_false, if_true]
    norm_num [recQtyFalsy]
  rw [hre]
  refine ⟨hfloor, rfl, rfl, rfl, ?_⟩
  show List.find? (fun x => x.id == rid)
      (updateRec
        (updateRec st.recommendations rid (fun x => { x with quantity := some 0 }))
        rid
        (fun x => { x with executed := true, executedAtStamped := true })) = _
  rw [find?_updateRec
      (updateRec st.recommendations rid (fun x => { x with quantity := some 0 }))
      rid
      (fun x => { x with executed := true, executedAtStamped := true })
      (fun x => rfl)]
  rw [find?_updateRec st.recommendations rid
      (fun x => { x with quantity := some 0 })
      (fun x => rfl)]
  rw [hfind]
  rfl

/-- Witness for C10: price 20 exceeds 10% of the 100 cash, so the derived
quantity floors to 0, nothing is traded, and the recommendation is
nevertheless consumed. -/
theorem C10_witness :
    ((100 : ℚ) * (1 / 10) < 20) ∧
    ((⌊(100 : ℚ) * (1 / 10 : ℚ) / 20⌋ : ℤ) = 0 ∧
     (executeRecommendation (fun _ => some 20)
       { portfolios := [("p1", { initialCapital := 100, currentCash := 100,
                                 holdings := [] })],
         transactions := [],
         recommendations := [{ id := "r1", portfolioId := "p1", symbol := "ACME",
                               action := RecAction.BUY, quantity := none,
                               executed := false, executedAtStamped := false }] }
       "r1").1 = none ∧
     (executeRecommendation (fun _ => some 20)
       { portfolios := [("p1", { initialCapital := 100, currentCash := 100,
                                 holdings := [] })],
         transactions := [],
         recommendations := [{ id := "r1", portfolioId := "p1", symbol := "ACME",
                               action := RecAction.BUY, quantity := none,
                               executed := false, executedAtStamped := false }] }
       "r1").2.transactions = [] ∧
     (executeRecommendation (fun _ => some 20)
       { portfolios := [("p1", { initialCapital := 100, currentCash := 100,
                                 holdings := [] })],
         transactions := [],
         recommendations := [{ id := "r1", portfolioId := "p1", symbol := "ACME",
                               action := RecAction.BUY, quantity := none,
                               executed := false, executedAtStamped := false }] }
       "r1").2.portfolios = [("p1", { initialCapital := 100, currentCash := 100,
                                      holdings := [] })] ∧
     (executeRecommendation (fun _ => some 20)
       { portfolios := [("p1", { initialCapital := 100, currentCash := 100,
                                 holdings := [] })],
         transactions := [],
         recommendations := [{ id := "r1", portfolioId := "p1", symbol := "ACME",
                               action := RecAction.BUY, quantity := none,
                               executed := false, executedAtStamped := false }] }
       "r1").2.recommendations.find? (fun x => x.id == "r1") =
       some { id := "r1", portfolioId := "p1", symbol := "ACME",
              action := RecAction.BUY, quantity := some 0, executed := true,
              executedAtStamped := true }) := by
  refine ⟨by norm_num, ?_⟩
  exact C10_zero_quantity_still_consumed (fun _ => some 20)
    { portfolios := [("p1", { initialCapital := 100, currentCash := 100,
                              holdings := [] })],
      transactions := [],
      recommendations := [{ id := "r1", portfolioId := "p1", symbol := "ACME",
                            action := RecAction.BUY, quantity := none,
                            executed := false, executedAtStamped := false }] }
    "r1"
    { id := "r1", portfolioId := "p1", symbol := "ACME", action := RecAction.BUY,
      quantity := none, executed := false, executedAtStamped := false }
    { initialCapital := 100, currentCash := 100, holdings := [] }
    20
    (by simp [List.find?]) rfl rfl rfl (by simp [List.lookup]) rfl
    (by norm_num) (by norm_num) (by norm_num)

/-- Witness for C5 amended on a concrete portfolio: a mapped nonzero price
is used, a missing symbol falls back to `averageCost`. -/
theorem C5_witness :
    (calculateTotalValue
      { initialCapital := 1000, currentCash := 100,
        holdings := [{ symbol := "A", quantity := 10, averageCost := 100 },
                     { symbol := "B", quantity := 2, averageCost := 50 }] }
      [("A", 120)]).1.totalValue =
      ({ initialCapital := 1000, currentCash := 100,
         holdings := [{ symbol := "A", quantity := 10, averageCost := 100 },
                      { symbol := "B", quantity := 2, averageCost := 50 }] } :
        PortfolioModel).currentCash +
      ((({ initialCapital := 1000, currentCash := 100,
           holdings := [{ symbol := "A", quantity := 10, averageCost := 100 },
                        { symbol := "B", quantity := 2, averageCost := 50 }] } :
          PortfolioModel).holdings).map
        (fun h => h.quantity * priceUsed [("A", 120)] h)).sum := by
  exact (C5_amended_valuation
    { initialCapital := 1000, currentCash := 100,
      holdings := [{ symbol := "A", quantity := 10, averageCost := 100 },
                   { symbol := "B", quantity := 2, averageCost := 50 }] }
    [("A", 120)]).1
